import Mathlib

/-!
Verification development for the Isometry knowledge-base sync scripts
(`scripts/sync-github-issues.py`, `scripts/import-apple-notes.py`,
`scripts/split-kb-files.py`).  Strings are embedded as `List Char`; the
shallow embedding below translates each Python function into a Lean
function, and the theorems at the end settle the specification claims.
-/

/-- Characters removed by Python `str.strip()` (its six whitespace characters). -/
def pyIsSpace (c : Char) : Bool :=
  c = ' ' || c = '\t' || c = '\n' || c = '\r' || c = '\x0b' || c = '\x0c'

/-- Python `str.strip()`: drop leading and trailing whitespace. -/
def pyStrip (l : List Char) : List Char :=
  ((l.dropWhile pyIsSpace).reverse.dropWhile pyIsSpace).reverse

/-- Python `s.split(':', 1)[-1]`: everything after the first colon, or the whole
string when no colon occurs. -/
def afterFirstColon (l : List Char) : List Char :=
  if ':' ∈ l then (l.dropWhile (fun c => c != ':')).tail else l

/-- Python `str.isalnum`, evaluated only on the characters this development
uses: ASCII alphanumerics, plus the non-ASCII letter 'é' (Python's `isalnum`
is Unicode-aware, so non-ASCII letters such as 'é' satisfy it). -/
def pyIsAlnum (c : Char) : Bool := c.isAlphanum || c = 'é'

/-- Decimal digit string of a natural number, most significant digit first
(models Python `str(n)` / `"%d" % n` for `n ≥ 0`); fuel-based structural
recursion, where fuel `n` always suffices. -/
def natDigitsAux : Nat → Nat → List Char
  | 0, n => [Nat.digitChar n]
  | fuel + 1, n =>
    if n < 10 then [Nat.digitChar n]
    else natDigitsAux fuel (n / 10) ++ [Nat.digitChar (n % 10)]

/-- Python `str(n)` for a natural number. -/
def natRepr (n : Nat) : List Char := natDigitsAux n n

/-- Python f-string `{n:03d}`: the decimal digits left-padded with '0' to
width 3. -/
def pad3 (n : Nat) : List Char :=
  List.replicate (3 - (natRepr n).length) '0' ++ natRepr n

/-- Python f-string interpolation of an optional string: `None` prints as
the four characters `None`. -/
def optStr : Option (List Char) → List Char
  | none => ("None").toList
  | some s => s

/-- Python `', '.join(parts)`. -/
def joinComma : List (List Char) → List Char
  | [] => []
  | [l] => l
  | l :: ls => l ++ (", ").toList ++ joinComma ls

/-- Concatenate a list of lines, terminating each with a newline. -/
def joinLn : List (List Char) → List Char
  | [] => []
  | l :: ls => l ++ '\n' :: joinLn ls

/-- Concatenate a list of character lists. -/
def catLists (ls : List (List Char)) : List Char := ls.foldr (fun a b => a ++ b) []

/-- Split a character list at newlines (the final segment may be empty). -/
def splitLines : List Char → List (List Char)
  | [] => [[]]
  | c :: rest =>
    match splitLines rest with
    | [] => [[]]
    | line :: ls => if c = '\n' then [] :: line :: ls else (c :: line) :: ls

/-- The key named by one frontmatter line: the text before its first colon,
when the line has one. -/
def keyFn (line : List Char) : Option (List Char) :=
  if ':' ∈ line then some (line.takeWhile (fun c => c != ':')) else none

/-- The frontmatter keys of a rendered block, in the order emitted. -/
def keysOf (s : List Char) : List (List Char) := (splitLines s).filterMap keyFn

/-- The character class `[a-z0-9-_]` named by the specification's sanitizer
contract. -/
def inSafeSet (c : Char) : Bool :=
  ('a' ≤ c && c ≤ 'z') || ('0' ≤ c && c ≤ '9') || c = '-' || c = '_'

/-- Index of the first occurrence of `pat` in a character list (the leftmost
position where `pat` is a prefix of the remaining text), if any. -/
def findPat (pat : List Char) : List Char → Option Nat
  | [] => if pat.isPrefixOf ([] : List Char) then some 0 else none
  | c :: rest =>
    if pat.isPrefixOf (c :: rest) then some 0
    else (findPat pat rest).map (· + 1)

/-- Python `s.replace(pat, rep)`: replace non-overlapping occurrences left to
right.  Fuel-based structural recursion; `s.length` fuel always suffices for
a nonempty pattern (an empty pattern is left untouched, which no caller in the
sources uses). -/
def pyReplaceAux (pat rep : List Char) : Nat → List Char → List Char
  | 0, s => s
  | _ + 1, [] => []
  | fuel + 1, c :: rest =>
    if pat ≠ [] ∧ pat.isPrefixOf (c :: rest) then
      rep ++ pyReplaceAux pat rep fuel ((c :: rest).drop pat.length)
    else c :: pyReplaceAux pat rep fuel rest

/-- Python `s.replace(pat, rep)`. -/
def pyReplace (s pat rep : List Char) : List Char := pyReplaceAux pat rep s.length s

/-- Python `s.replace(".md", "")` from import-apple-notes.py: remove every
non-overlapping occurrence of `.md`, left to right. -/
def removeMd (s : List Char) : List Char := pyReplace s ((".md").toList) []

/-- Strict lexicographic order on character lists (the order in which a file
listing sorts names). -/
def lexLt : List Char → List Char → Bool
  | [], [] => false
  | [], _ :: _ => true
  | _ :: _, [] => false
  | a :: as, b :: bs => if a < b then true else if a = b then lexLt as bs else false

/-- Parse a digit string back to a number (proof device for injectivity of
decimal printing). -/
def digitsToNat (l : List Char) : Nat := l.foldl (fun a c => 10 * a + (c.toNat - 48)) 0

namespace GithubSync

/-- A well-formed GitHub issue payload, after JSON decoding: the fields
read by sync-github-issues.py.  A JSON `null` timestamp is modelled as the
empty string (both are falsy in the Python source and make `format_date`
return `None`). -/
structure Issue where
  number : Nat
  title : List Char
  state : List Char
  created_at : List Char
  updated_at : List Char
  closed_at : List Char
  labels : List (List Char)
  body : List Char
  html_url : List Char
deriving DecidableEq

/-- Models `format_date`: a falsy (empty) input gives `None`; otherwise
`datetime.fromisoformat` followed by `strftime('%Y-%m-%d')`, which for a
well-formed ISO-8601 timestamp such as `2024-01-15T10:00:00Z` is exactly its
first ten characters. -/
def format_date (iso : List Char) : Option (List Char) :=
  if iso = [] then none else some (iso.take 10)

/-- Phase classification from the title prefix: `P1`/`P2`/`P3`, first match
wins, otherwise absent. -/
def phase_of (title : List Char) : Option (List Char) :=
  if ("P1").toList.isPrefixOf title then some (("phase-1").toList)
  else if ("P2").toList.isPrefixOf title then some (("phase-2").toList)
  else if ("P3").toList.isPrefixOf title then some (("phase-3").toList)
  else none

/-- Models `format_date(issue['closed_at']) if issue['closed_at'] else None`. -/
def closedDate (i : Issue) : Option (List Char) :=
  if i.closed_at ≠ [] then format_date i.closed_at else none

/-- The lines of the frontmatter block built by `create_issue_markdown`
(the Python code appends each line with a trailing newline to one string;
`joinLn` of these lines is byte-identical to that string). -/
def fmLines (i : Issue) : List (List Char) :=
  [("---").toList]
  ++ [("github_issue: ").toList ++ natRepr i.number]
  ++ [("title: \"").toList ++ i.title ++ ("\"").toList]
  ++ [("state: ").toList ++ i.state]
  ++ [("created: ").toList ++ optStr (format_date i.created_at)]
  ++ [("updated: ").toList ++ optStr (format_date i.updated_at)]
  ++ (match closedDate i with
      | some c => [("closed: ").toList ++ c]
      | none => [])
  ++ (if i.labels ≠ [] then [("labels: [").toList ++ joinComma i.labels ++ ("]").toList] else [])
  ++ (match phase_of i.title with
      | some p => [("phase: ").toList ++ p]
      | none => [])
  ++ [("url: ").toList ++ i.html_url]
  ++ [("---").toList]

/-- The frontmatter block of `create_issue_markdown`. -/
def buildFrontmatter (i : Issue) : List Char := joinLn (fmLines i)

/-- The content part of `create_issue_markdown` (everything after the
frontmatter block). -/
def contentOf (i : Issue) : List Char :=
  ("# Issue #").toList ++ natRepr i.number ++ (": ").toList ++ i.title
  ++ ("\n\n**Status:** ").toList ++ i.state.map Char.toUpper
  ++ ("\n**GitHub:** [").toList ++ i.html_url ++ ("](").toList ++ i.html_url ++ (")").toList
  ++ ("\n**Created:** ").toList ++ optStr (format_date i.created_at)
  ++ ("\n**Updated:** ").toList ++ optStr (format_date i.updated_at) ++ ("\n").toList
  ++ (match closedDate i with
      | some c => ("**Closed:** ").toList ++ c ++ ("\n").toList
      | none => [])
  ++ (if i.labels ≠ [] then
        ("\n**Labels:** ").toList
        ++ joinComma (i.labels.map (fun l => ("`").toList ++ l ++ ("`").toList))
        ++ ("\n").toList
      else [])
  ++ ("\n---\n\n").toList ++ pyStrip i.body ++ ("\n").toList
  ++ ("\n\n---\n\n## Related\n\n").toList
  ++ (match phase_of i.title with
      | some p =>
        if p = ("phase-1").toList then
          ("- [[ISOMETRY-MVP-GAP-ANALYSIS]] - MVP Roadmap (Phase 1: Foundation)\n").toList
        else if p = ("phase-2").toList then
          ("- [[ISOMETRY-MVP-GAP-ANALYSIS]] - MVP Roadmap (Phase 2: Views)\n").toList
        else
          ("- [[ISOMETRY-MVP-GAP-ANALYSIS]] - MVP Roadmap (Phase 3: Filters)\n").toList
      | none => [])
  ++ ("- [[isometry-evolution-timeline]] - Project timeline\n").toList

/-- `create_issue_markdown(issue)`: frontmatter followed by content. -/
def create_issue_markdown (i : Issue) : List Char := buildFrontmatter i ++ contentOf i

/-- `sanitize_filename(title)` from sync-github-issues.py: drop everything
through the first colon and strip the remainder, lowercase, hyphenate spaces
and slashes, spell the arrow glyph as `to`, then keep only alphanumerics,
hyphen and underscore.  Single-character `str.replace` is a per-character map;
`replace('→', 'to')` maps one character to two. -/
def sanitize_filename (title : List Char) : List Char :=
  let t := pyStrip (afterFirstColon title)
  let low := t.map Char.toLower
  let h1 := low.map (fun c => if c = ' ' then '-' else c)
  let h2 := h1.map (fun c => if c = '/' then '-' else c)
  let h3 := h2.flatMap (fun c => if c = '→' then ("to").toList else [c])
  h3.filter (fun c => pyIsAlnum c || c = '-' || c = '_')

/-- Output filename for an issue, as in `main`:
`f"{number:03d}-{sanitize_filename(title)}.md"`. -/
def filenameOf (i : Issue) : List Char :=
  pad3 i.number ++ ('-' :: sanitize_filename i.title) ++ (".md").toList

/-- Link basename used inside the index:
`{number:03d}-{title.lower().replace(':', '').replace(' ', '-')}`. -/
def indexLinkName (i : Issue) : List Char :=
  pad3 i.number
  ++ '-' :: (((i.title.map Char.toLower).filter (fun c => c != ':')).map
      (fun c => if c = ' ' then '-' else c))

/-- One listing line of the index. -/
def indexIssueLine (i : Issue) : List Char :=
  (if i.state = ("closed").toList then ("✅").toList else ("🔲").toList)
  ++ (" **Issue #").toList ++ natRepr i.number ++ (":** [[").toList
  ++ indexLinkName i ++ ("|").toList ++ i.title ++ ("]]  \n").toList

/-- Stable insertion keeping earlier equal keys first (building block for
Python's stable `sorted(..., key=lambda x: x['number'])`). -/
def insertByNum (x : Issue) : List Issue → List Issue
  | [] => [x]
  | y :: ys => if y.number ≤ x.number then y :: insertByNum x ys else x :: y :: ys

/-- Python `sorted(issues, key=lambda x: x['number'])` (stable). -/
def sortByNum (l : List Issue) : List Issue := l.foldl (fun acc x => insertByNum x acc) []

/-- Issues whose title starts with the given phase marker. -/
def phaseFilter (p : String) (issues : List Issue) : List Issue :=
  issues.filter (fun i => (p).toList.isPrefixOf i.title)

/-- Count of issues in a given state. -/
def stateCount (s : String) (issues : List Issue) : Nat :=
  (issues.filter (fun i => i.state = (s).toList)).length

/-- The part of `create_index` before the `Last synced` timestamp. -/
def createIndexPre (issues : List Issue) : List Char :=
  ("# GitHub Issues\n\n**Purpose:** Track implementation progress via GitHub Issues integration\n\n---\n\n## Overview\n\n**Total Issues:** ").toList
  ++ natRepr issues.length
  ++ ("\n**Open:** ").toList ++ natRepr (stateCount "open" issues)
  ++ ("\n**Closed:** ").toList ++ natRepr (stateCount "closed" issues)
  ++ ("\n\nThese issues track the Isometry MVP implementation across three phases:\n- **Phase 1:** Foundation (SQLite, schema, hooks)\n- **Phase 2:** Views (Grid, List, PAFV)\n- **Phase 3:** Filters (State, SQL compilation)\n\n---\n\n## Sync\n\nIssues are synced from GitHub using:\n```bash\npython3 scripts/sync-github-issues.py\n```\n\nThis creates/updates markdown files in `docs/issues/` with frontmatter linking to GitHub.\n\n**Last synced:** ").toList

/-- The part of `create_index` after the `Last synced` timestamp: the three
phase listings and the fixed footer. -/
def createIndexPost (issues : List Issue) : List Char :=
  ("\n\n---\n\n## Phase 1: Foundation\n\n").toList
  ++ catLists ((sortByNum (phaseFilter "P1" issues)).map indexIssueLine)
  ++ ("\n## Phase 2: Views\n\n").toList
  ++ catLists ((sortByNum (phaseFilter "P2" issues)).map indexIssueLine)
  ++ ("\n## Phase 3: Filters\n\n").toList
  ++ catLists ((sortByNum (phaseFilter "P3" issues)).map indexIssueLine)
  ++ ("\n---\n\n## Related\n\n- [[ISOMETRY-MVP-GAP-ANALYSIS]] - Full MVP roadmap\n- [[isometry-evolution-timeline]] - Project timeline\n- [[Excavating CardBoard for Isometry]] - Historical context\n\n---\n\n## Adding New Issues\n\n1. Create issue on GitHub: https://github.com/mshaler/Isometry/issues/new\n2. Run sync script: `python3 scripts/sync-github-issues.py`\n3. Commit changes: `git add docs/issues/ && git commit -m \"docs: sync GitHub issues\"`\n\n---\n\n## Issue Template\n\nWhen creating new issues on GitHub, use this structure:\n\n```markdown\n## Overview\n[Brief description of what needs to be implemented]\n\n## Requirements\n- [ ] Requirement 1\n- [ ] Requirement 2\n\n## Implementation\n[Code snippets, approach details]\n\n## Deliverable\n- File/component to create\n- Acceptance criteria\n```\n").toList

/-- `create_index(issues)`: the README index text.  `now` is the string the
source reads from `datetime.now().strftime('%Y-%m-%d %H:%M')` when the index
is built; the shallow embedding passes the clock in explicitly. -/
def create_index (issues : List Issue) (now : List Char) : List Char :=
  createIndexPre issues ++ now ++ createIndexPost issues

/-- The `(path, content)` file writes performed by `main()` on a fetched list
of well-formed issues (every field present): nothing at all on an empty list
(`main` returns before touching the filesystem), otherwise one markdown file
per issue in input order followed by the rebuilt `README.md` index. -/
def syncOutputs (issues : List Issue) (now : List Char) : List (List Char × List Char) :=
  if issues = [] then []
  else (issues.map (fun i => (filenameOf i, create_issue_markdown i)))
       ++ [((("README.md").toList), create_index issues now)]

/-- Models `fetch_issues()`: a transport failure (`URLError`) is caught and
turned into the empty list; success returns the decoded payload. -/
def fetch_issues (r : Except (List Char) (List Issue)) : List Issue :=
  match r with
  | .error _ => []
  | .ok l => l

/-- A directory as an association list of `(path, content)` files. -/
def writeFile (dir : List (List Char × List Char)) (p c : List Char) :
    List (List Char × List Char) :=
  if dir.any (fun e => e.1 = p) then dir.map (fun e => if e.1 = p then (p, c) else e)
  else dir ++ [(p, c)]

/-- Apply a list of file writes to a directory, overwriting in place and
creating missing files; nothing is ever deleted. -/
def applyWrites (dir : List (List Char × List Char)) (ws : List (List Char × List Char)) :
    List (List Char × List Char) :=
  ws.foldl (fun d w => writeFile d w.1 w.2) dir

/-- A whole sync run against a directory: fetch (possibly failing), then
`main`'s writes applied to the directory. -/
def runSyncOnDir (r : Except (List Char) (List Issue)) (now : List Char)
    (dir : List (List Char × List Char)) : List (List Char × List Char) :=
  applyWrites dir (syncOutputs (fetch_issues r) now)

/-- A raw issue payload as decoded from JSON: `none` models an absent key
(a direct subscript raises `KeyError`); a JSON `null` timestamp is modelled
as `some []` (both falsy).  `labels` and `body` are read with `.get` and so
never raise. -/
structure RawIssue where
  number : Option Nat
  title : Option (List Char)
  state : Option (List Char)
  created_at : Option (List Char)
  updated_at : Option (List Char)
  closed_at : Option (List Char)
  labels : List (List Char)
  body : List Char
  html_url : Option (List Char)
deriving DecidableEq

/-- Read a required key from a payload: raises `KeyError` when absent. -/
def req {α : Type} (k : List Char) : Option α → Except (List Char) α
  | none => .error (("KeyError: ").toList ++ k)
  | some v => .ok v

/-- A raw payload with every required field present, with the defaults never
read on the success path. -/
def rawToIssue (r : RawIssue) : Issue :=
  ⟨r.number.getD 0, (r.title).getD [], (r.state).getD [], (r.created_at).getD [],
   (r.updated_at).getD [], (r.closed_at).getD [], r.labels, r.body, (r.html_url).getD []⟩

/-- `create_issue_markdown` on a raw payload: the first missing required field
(number, title, state, created_at, updated_at, closed_at, html_url, read in
source order) raises `KeyError`; otherwise the pure renderer runs. -/
def create_issue_markdownE (r : RawIssue) : Except (List Char) (List Char) := do
  let _ ← req (("number").toList) r.number
  let _ ← req (("title").toList) r.title
  let _ ← req (("state").toList) r.state
  let _ ← req (("created_at").toList) r.created_at
  let _ ← req (("updated_at").toList) r.updated_at
  let _ ← req (("closed_at").toList) r.closed_at
  let _ ← req (("html_url").toList) r.html_url
  pure (create_issue_markdown (rawToIssue r))

/-- One iteration of `main`'s loop: read number and title (for the filename),
then render the markdown; any missing required field raises. -/
def renderOne (r : RawIssue) : Except (List Char) (List Char × List Char) := do
  let n ← req (("number").toList) r.number
  let t ← req (("title").toList) r.title
  let md ← create_issue_markdownE r
  pure (pad3 n ++ ('-' :: sanitize_filename t) ++ (".md").toList, md)

/-- The unguarded `for` loop of `main`: files written before the first
uncaught `KeyError` persist; the loop (and the whole program) aborts there. -/
def processAll : List RawIssue → List (List Char × List Char) × Option (List Char)
  | [] => ([], none)
  | r :: rest =>
    match renderOne r with
    | .error e => ([], some e)
    | .ok fc => (fc :: (processAll rest).1, (processAll rest).2)

/-- `main()` on raw payloads: an empty fetch result returns at once; otherwise
the per-issue loop runs, and the index is written only when no exception
aborted the loop. -/
def runSyncRaw (issues : List RawIssue) (now : List Char) :
    List (List Char × List Char) × Option (List Char) :=
  if issues = [] then ([], none)
  else
    match processAll issues with
    | (files, some e) => (files, some e)
    | (files, none) =>
      (files ++ [((("README.md").toList), create_index (issues.map rawToIssue) now)], none)

end GithubSync

namespace AppleNotes

/-- `sanitize_filename(filename)` from import-apple-notes.py: when the name
ends in `.md` and the piece after the last hyphen, with every `.md` occurrence
removed, is a nonempty digit string, drop that piece together with its hyphen
and restore the `.md` extension; otherwise return the name unchanged.
`rsplit('-', 1)` yields a single piece when no hyphen occurs, and Python's
`''.isdigit()` is `False`. -/
def sanitize_filename (filename : List Char) : List Char :=
  if (".md").toList.isSuffixOf filename then
    if '-' ∈ filename then
      let r := filename.reverse
      let afterDash := (r.takeWhile (fun c => c != '-')).reverse
      let beforeDash := ((r.dropWhile (fun c => c != '-')).tail).reverse
      let digitsPart := removeMd afterDash
      if digitsPart ≠ [] ∧ digitsPart.all Char.isDigit then beforeDash ++ (".md").toList
      else filename
    else filename
  else filename

end AppleNotes

namespace SplitKB

/-- Section extraction as performed by split-kb-files.py:
`re.search(start + '.*?' + (?= end), doc, re.DOTALL)`.  The leftmost match
begins at the first occurrence of the start marker, and the lazy body stops at
the first occurrence of the end pattern after the marker (the lookahead
consumes nothing); when either marker is missing the search fails.  Returns
`group(0)`, which includes the start marker itself. -/
def extractGroup (doc start endPat : List Char) : Option (List Char) :=
  match findPat start doc with
  | none => none
  | some m =>
    match findPat endPat (doc.drop (m + start.length)) with
    | none => none
    | some k => some (start ++ (doc.drop (m + start.length)).take k)

/-- The section text the script writes: `group(0).replace(start, '').strip()`. -/
def splitSection (doc start endPat : List Char) : Option (List Char) :=
  (extractGroup doc start endPat).map (fun g => pyStrip (pyReplace g start []))

end SplitKB

namespace Samples

/-- A well-formed issue used when analysing idempotence of the sync output. -/
def c1Issue : GithubSync.Issue :=
  ⟨12, ("P1.2: Create schema").toList, ("open").toList,
   ("2026-01-10T08:00:00Z").toList, ("2026-01-11T09:30:00Z").toList, [],
   [("phase-1").toList], ("Implement the schema.").toList,
   ("https://github.com/mshaler/Isometry/issues/12").toList⟩

/-- A raw payload with every required field present. -/
def c2Ok1 : GithubSync.RawIssue :=
  ⟨some 1, some (("First").toList), some (("open").toList),
   some (("2026-01-01T00:00:00Z").toList), some (("2026-01-02T00:00:00Z").toList),
   some [], [], ("body one").toList, some (("https://x/1").toList)⟩

/-- A raw payload missing the required field `number`. -/
def c2Bad : GithubSync.RawIssue :=
  ⟨none, some (("Second").toList), some (("open").toList),
   some (("2026-01-03T00:00:00Z").toList), some (("2026-01-04T00:00:00Z").toList),
   some [], [], ("body two").toList, some (("https://x/2").toList)⟩

/-- A third, well-formed raw payload. -/
def c2Ok3 : GithubSync.RawIssue :=
  ⟨some 3, some (("Third").toList), some (("open").toList),
   some (("2026-01-05T00:00:00Z").toList), some (("2026-01-06T00:00:00Z").toList),
   some [], [], ("body three").toList, some (("https://x/3").toList)⟩

/-- An issue whose `html_url` field is the empty string. -/
def c6NoUrl : GithubSync.Issue :=
  ⟨3, ("T").toList, ("open").toList, ("2026-01-01T00:00:00Z").toList,
   ("2026-01-02T00:00:00Z").toList, [], [], [], []⟩

/-- A representative issue with labels, a closed date and a phase. -/
def c6Full : GithubSync.Issue :=
  ⟨7, ("P2.1: Grid view").toList, ("closed").toList, ("2026-01-01T00:00:00Z").toList,
   ("2026-01-02T00:00:00Z").toList, ("2026-01-03T00:00:00Z").toList,
   [("bug").toList, ("views").toList], ("Body.").toList, ("https://x/7").toList⟩

end Samples

section Helpers

/-- takeWhile over a block that fully satisfies the predicate, stopped by the
next element. -/
lemma takeWhile_block {p : Char → Bool} :
    ∀ (xs : List Char) (y : Char) (ys : List Char), (∀ c ∈ xs, p c = true) → p y = false →
      (xs ++ y :: ys).takeWhile p = xs := by
  intro xs y ys hall hy
  induction xs with
  | nil => simp [List.takeWhile_cons, hy]
  | cons c xs ih =>
    have hc : p c = true := hall c (by simp)
    simp only [List.cons_append, List.takeWhile_cons, hc, if_true]
    rw [ih (fun d hd => hall d (by simp [hd]))]

/-- dropWhile over a block that fully satisfies the predicate. -/
lemma dropWhile_block {p : Char → Bool} :
    ∀ (xs ys : List Char), (∀ c ∈ xs, p c = true) →
      (xs ++ ys).dropWhile p = ys.dropWhile p := by
  intro xs ys hall
  induction xs with
  | nil => rfl
  | cons c xs ih =>
    have hc : p c = true := hall c (by simp)
    simp only [List.cons_append, List.dropWhile_cons, hc, if_true]
    exact ih (fun d hd => hall d (by simp [hd]))

lemma digitChar_isDigit : ∀ d, d < 10 → (Nat.digitChar d).isDigit = true := by decide

lemma natDigitsAux_isDigit :
    ∀ fuel n, n ≤ fuel → ∀ c ∈ natDigitsAux fuel n, c.isDigit = true := by
  intro fuel
  induction fuel with
  | zero =>
    intro n hn c hc
    interval_cases n
    simp only [natDigitsAux, List.mem_singleton] at hc
    subst hc
    decide
  | succ f ih =>
    intro n hn c hc
    by_cases h10 : n < 10
    · simp only [natDigitsAux, if_pos h10] at hc
      simp only [List.mem_singleton] at hc
      subst hc
      exact digitChar_isDigit n h10
    · simp only [natDigitsAux, if_neg h10, List.mem_append, List.mem_singleton] at hc
      rcases hc with hc | hc
      · exact ih (n / 10) (by omega) c hc
      · subst hc
        exact digitChar_isDigit _ (Nat.mod_lt _ (by omega))

lemma natRepr_isDigit (n : Nat) : ∀ c ∈ natRepr n, c.isDigit = true :=
  natDigitsAux_isDigit n n le_rfl

lemma pad3_isDigit (n : Nat) : ∀ c ∈ pad3 n, c.isDigit = true := by
  intro c hc
  simp only [pad3, List.mem_append, List.mem_replicate] at hc
  rcases hc with ⟨-, hc⟩ | hc
  · subst hc; decide
  · exact natRepr_isDigit n c hc

lemma isDigit_ne {c d : Char} (h : c.isDigit = true) (hd : d.isDigit = false) : c ≠ d := by
  intro he; subst he; rw [h] at hd; exact Bool.noConfusion hd

lemma digitsToNat_append_single (xs : List Char) (c : Char) :
    digitsToNat (xs ++ [c]) = 10 * digitsToNat xs + (c.toNat - 48) := by
  simp [digitsToNat, List.foldl_append]

lemma digitChar_toNat : ∀ d, d < 10 → (Nat.digitChar d).toNat - 48 = d := by decide

lemma digitsToNat_natDigitsAux : ∀ fuel n, n ≤ fuel → digitsToNat (natDigitsAux fuel n) = n := by
  intro fuel
  induction fuel with
  | zero =>
    intro n hn
    interval_cases n
    decide
  | succ f ih =>
    intro n hn
    by_cases h10 : n < 10
    · simp only [natDigitsAux, if_pos h10]
      have : digitsToNat [Nat.digitChar n] = (Nat.digitChar n).toNat - 48 := by
        simp [digitsToNat]
      rw [this, digitChar_toNat n h10]
    · simp only [natDigitsAux, if_neg h10]
      rw [digitsToNat_append_single, ih (n / 10) (by omega),
        digitChar_toNat (n % 10) (Nat.mod_lt _ (by omega))]
      omega

lemma digitsToNat_natRepr (n : Nat) : digitsToNat (natRepr n) = n :=
  digitsToNat_natDigitsAux n n le_rfl

lemma digitsToNat_replicate_zero :
    ∀ (k : Nat) (ds : List Char), digitsToNat (List.replicate k '0' ++ ds) = digitsToNat ds := by
  intro k
  induction k with
  | zero => intro ds; rfl
  | succ m ih =>
    intro ds
    have : digitsToNat (('0' :: List.replicate m '0') ++ ds)
        = digitsToNat (List.replicate m '0' ++ ds) := by
      simp [digitsToNat]
    simpa [List.replicate_succ] using (this.trans (ih ds))

lemma digitsToNat_pad3 (n : Nat) : digitsToNat (pad3 n) = n := by
  rw [pad3, digitsToNat_replicate_zero, digitsToNat_natRepr]

lemma takeWhile_pad3 (n : Nat) (rest : List Char) :
    (pad3 n ++ '-' :: rest).takeWhile (fun c => c != '-') = pad3 n := by
  apply takeWhile_block
  · intro c hc
    have := pad3_isDigit n c hc
    simpa [bne_iff_ne] using isDigit_ne this (by decide)
  · decide

end Helpers

section ReplaceLemmas

lemma isPrefixOf_append_self : ∀ (l r : List Char), l.isPrefixOf (l ++ r) = true := by
  intro l r
  induction l with
  | nil => simp [List.isPrefixOf]
  | cons c t ih => simp [List.isPrefixOf, ih]

lemma isPrefixOf_cons_ne {p c : Char} (ps l : List Char) (h : c ≠ p) :
    (p :: ps).isPrefixOf (c :: l) = false := by
  simp only [List.isPrefixOf, Bool.and_eq_false_iff]
  left
  simpa [beq_eq_false_iff_ne] using fun he => h he.symm

lemma pyReplaceAux_fuel {pat rep : List Char} :
    ∀ f g (s : List Char), s.length ≤ f → s.length ≤ g →
      pyReplaceAux pat rep f s = pyReplaceAux pat rep g s := by
  intro f
  induction f with
  | zero =>
    intro g s hf hg
    have : s = [] := List.length_eq_zero.mp (by omega)
    subst this
    cases g <;> rfl
  | succ f ih =>
    intro g s hf hg
    cases s with
    | nil => cases g <;> rfl
    | cons c rest =>
      cases g with
      | zero => simp at hg
      | succ g =>
        by_cases hcond : pat ≠ [] ∧ pat.isPrefixOf (c :: rest)
        · have hplen : 0 < pat.length := List.length_pos.mpr hcond.1
          simp only [pyReplaceAux, if_pos hcond]
          congr 1
          apply ih
          · simp only [List.length_drop]
            simp only [List.length_cons] at hf ⊢
            omega
          · simp only [List.length_drop]
            simp only [List.length_cons] at hg ⊢
            omega
        · simp only [pyReplaceAux, if_neg hcond]
          congr 1
          apply ih
          · simp only [List.length_cons] at hf; omega
          · simp only [List.length_cons] at hg; omega

lemma pyReplaceAux_front {pat rep : List Char} (p : Char) (ps : List Char)
    (hpat : pat = p :: ps) :
    ∀ (xs rest : List Char) (fuel : Nat), (∀ c ∈ xs, c ≠ p) →
      (xs ++ pat ++ rest).length ≤ fuel →
      pyReplaceAux pat rep fuel (xs ++ pat ++ rest)
        = xs ++ rep ++ pyReplaceAux pat rep rest.length rest := by
  subst hpat
  intro xs
  induction xs with
  | nil =>
    intro rest fuel hxs hfuel
    simp only [List.nil_append]
    cases fuel with
    | zero =>
      exfalso
      simp only [List.length_append, List.length_cons] at hfuel
      omega
    | succ f =>
      have hshape : (p :: ps) ++ rest = p :: (ps ++ rest) := rfl
      rw [hshape]
      have hcond : (p :: ps) ≠ [] ∧ (p :: ps).isPrefixOf (p :: (ps ++ rest)) := by
        refine ⟨by simp, ?_⟩
        rw [← hshape]
        exact isPrefixOf_append_self (p :: ps) rest
      simp only [pyReplaceAux, if_pos hcond]
      have hdrop : (p :: (ps ++ rest)).drop (p :: ps).length = rest := by
        rw [← hshape]
        exact List.drop_left (p :: ps) rest
      rw [hdrop]
      congr 1
      apply pyReplaceAux_fuel
      · simp only [List.length_append, List.length_cons] at hfuel ⊢
        omega
      · exact le_rfl
  | cons x xs ih =>
    intro rest fuel hxs hfuel
    cases fuel with
    | zero =>
      exfalso
      simp only [List.length_append, List.length_cons] at hfuel
      omega
    | succ f =>
      have hx : x ≠ p := hxs x (by simp)
      have hshape : (x :: xs) ++ (p :: ps) ++ rest = x :: (xs ++ (p :: ps) ++ rest) := by simp
      rw [hshape]
      have hcond : ¬((p :: ps) ≠ [] ∧ (p :: ps).isPrefixOf (x :: (xs ++ (p :: ps) ++ rest))) := by
        rintro ⟨-, hpre⟩
        rw [isPrefixOf_cons_ne ps (xs ++ (p :: ps) ++ rest) hx] at hpre
        exact Bool.noConfusion hpre
      simp only [pyReplaceAux, if_neg hcond]
      rw [ih rest f (fun c hc => hxs c (by simp [hc]))
        (by simp only [List.length_append, List.length_cons] at hfuel ⊢; omega)]
      simp

lemma findPat_cons_none {pat : List Char} {c : Char} {rest : List Char}
    (h : findPat pat (c :: rest) = none) :
    pat.isPrefixOf (c :: rest) = false ∧ findPat pat rest = none := by
  cases hp : pat.isPrefixOf (c :: rest) with
  | true => simp [findPat, hp] at h
  | false =>
    refine ⟨rfl, ?_⟩
    simp only [findPat, hp, Bool.false_eq_true, if_false] at h
    exact Option.map_eq_none'.mp h

lemma pyReplaceAux_no_occurrence {pat rep : List Char} :
    ∀ (l : List Char) (fuel : Nat), findPat pat l = none → l.length ≤ fuel →
      pyReplaceAux pat rep fuel l = l := by
  intro l
  induction l with
  | nil => intro fuel h hf; cases fuel <;> rfl
  | cons c rest ih =>
    intro fuel h hf
    obtain ⟨hpre, hrest⟩ := findPat_cons_none h
    cases fuel with
    | zero => simp at hf
    | succ f =>
      have hcond : ¬(pat ≠ [] ∧ pat.isPrefixOf (c :: rest)) := by
        rintro ⟨-, hp⟩
        rw [hpre] at hp
        exact Bool.noConfusion hp
      simp only [pyReplaceAux, if_neg hcond]
      rw [ih f hrest (by simp only [List.length_cons] at hf; omega)]

lemma pyReplace_front (rep : List Char) (p : Char) (ps xs rest : List Char)
    (hxs : ∀ c ∈ xs, c ≠ p) :
    pyReplace (xs ++ (p :: ps) ++ rest) (p :: ps) rep
      = xs ++ rep ++ pyReplace rest (p :: ps) rep := by
  exact pyReplaceAux_front p ps rfl xs rest _ hxs le_rfl

lemma pyReplace_no_occurrence {pat rep : List Char} (l : List Char)
    (h : findPat pat l = none) : pyReplace l pat rep = l :=
  pyReplaceAux_no_occurrence l l.length h le_rfl

end ReplaceLemmas

section LineLemmas

lemma splitLines_ne_nil : ∀ l : List Char, splitLines l ≠ [] := by
  intro l
  cases l with
  | nil => simp [splitLines]
  | cons c rest =>
    simp only [splitLines]
    rcases h : splitLines rest with - | ⟨line, ls⟩
    · simp
    · by_cases hc : c = '\n' <;> simp [hc]

lemma splitLines_line : ∀ (l r : List Char), '\n' ∉ l →
    splitLines (l ++ '\n' :: r) = l :: splitLines r := by
  intro l
  induction l with
  | nil =>
    intro r hl
    rcases h : splitLines r with - | ⟨line, ls⟩
    · exact absurd h (splitLines_ne_nil r)
    · simp [splitLines, h]
  | cons c t ih =>
    intro r hl
    have hc : c ≠ '\n' := fun he => hl (by simp [he])
    have ht : '\n' ∉ t := fun hm => hl (by simp [hm])
    show splitLines (c :: (t ++ '\n' :: r)) = (c :: t) :: splitLines r
    simp only [splitLines, List.append_eq]
    rw [ih r ht]
    simp [if_neg hc]

lemma splitLines_joinLn : ∀ ls : List (List Char), (∀ l ∈ ls, '\n' ∉ l) →
    splitLines (joinLn ls) = ls ++ [[]] := by
  intro ls
  induction ls with
  | nil => intro h; rfl
  | cons l ls ih =>
    intro h
    simp only [joinLn]
    rw [splitLines_line l (joinLn ls) (h l (by simp)), ih (fun x hx => h x (by simp [hx]))]
    rfl

end LineLemmas

section LexLemmas

lemma lexLt_append (r1 r2 : List Char) :
    ∀ (l1 l2 : List Char), l1.length = l2.length → lexLt l1 l2 = true →
      lexLt (l1 ++ r1) (l2 ++ r2) = true := by
  intro l1
  induction l1 with
  | nil =>
    intro l2 hlen hlt
    have : l2 = [] := List.length_eq_zero.mp (by simpa using hlen.symm)
    subst this
    simp [lexLt] at hlt
  | cons a as ih =>
    intro l2 hlen hlt
    cases l2 with
    | nil => simp at hlen
    | cons b bs =>
      simp only [List.cons_append]
      by_cases hab : a < b
      · simp [lexLt, hab]
      · by_cases heq : a = b
        · simp only [lexLt, if_neg hab, if_pos heq] at hlt ⊢
          exact ih bs (by simpa using hlen) hlt
        · simp [lexLt, hab, heq] at hlt

set_option maxRecDepth 100000 in
set_option maxHeartbeats 1000000 in
lemma pad3_digits3 : ∀ n, n < 1000 →
    pad3 n = [Nat.digitChar (n / 100), Nat.digitChar (n / 10 % 10), Nat.digitChar (n % 10)] := by
  decide

lemma digitChar_lt_iff :
    ∀ a, a < 10 → ∀ b, b < 10 → (Nat.digitChar a < Nat.digitChar b ↔ a < b) := by decide

lemma pad3_lexLt : ∀ i j, i < j → j ≤ 999 → lexLt (pad3 i) (pad3 j) = true := by
  intro i j hij hj
  rw [pad3_digits3 i (by omega), pad3_digits3 j (by omega)]
  have h1i : i / 100 < 10 := by omega
  have h1j : j / 100 < 10 := by omega
  have h2i : i / 10 % 10 < 10 := by omega
  have h2j : j / 10 % 10 < 10 := by omega
  have h3i : i % 10 < 10 := by omega
  have h3j : j % 10 < 10 := by omega
  rcases Nat.lt_trichotomy (i / 100) (j / 100) with h1 | h1 | h1
  · have := (digitChar_lt_iff _ h1i _ h1j).mpr h1
    simp [lexLt, this]
  · rw [h1]
    have hne1 : ¬ Nat.digitChar (j / 100) < Nat.digitChar (j / 100) := lt_irrefl _
    rcases Nat.lt_trichotomy (i / 10 % 10) (j / 10 % 10) with h2 | h2 | h2
    · have := (digitChar_lt_iff _ h2i _ h2j).mpr h2
      simp [lexLt, hne1, this]
    · rw [h2]
      have hne2 : ¬ Nat.digitChar (j / 10 % 10) < Nat.digitChar (j / 10 % 10) := lt_irrefl _
      have h3 : i % 10 < j % 10 := by omega
      have := (digitChar_lt_iff _ h3i _ h3j).mpr h3
      simp [lexLt, hne1, hne2, this]
    · omega
  · omega

lemma pad3_length3 (n : Nat) (h : n ≤ 999) : (pad3 n).length = 3 := by
  rw [pad3_digits3 n (by omega)]
  rfl

end LexLemmas

section ClaimC4

lemma writeFile_preserves_names (dir : List (List Char × List Char)) (q c p : List Char)
    (h : p ∈ dir.map Prod.fst) :
    p ∈ (GithubSync.writeFile dir q c).map Prod.fst := by
  unfold GithubSync.writeFile
  by_cases hq : dir.any (fun e => e.1 = q) = true
  · rw [if_pos hq]
    have hmap : (dir.map (fun e => if e.1 = q then (q, c) else e)).map Prod.fst
        = dir.map Prod.fst := by
      rw [List.map_map]
      apply List.map_congr_left
      intro a ha
      by_cases he : a.1 = q
      · simp [he]
      · simp [he]
    rw [hmap]
    exact h
  · rw [if_neg hq]
    rw [List.map_append]
    exact List.mem_append_left _ h

lemma applyWrites_preserves_names :
    ∀ (ws dir : List (List Char × List Char)) (p : List Char),
      p ∈ dir.map Prod.fst → p ∈ (GithubSync.applyWrites dir ws).map Prod.fst := by
  intro ws
  induction ws with
  | nil => intro dir p h; exact h
  | cons w ws ih =>
    intro dir p h
    show p ∈ (GithubSync.applyWrites (GithubSync.writeFile dir w.1 w.2) ws).map Prod.fst
    exact ih _ p (writeFile_preserves_names dir w.1 w.2 p h)

/-- C4: when the issue-tracker fetch fails at the transport level the adapter
returns the empty sequence, and the sync then writes no record files and
deletes nothing — the target directory is returned exactly unchanged; and in
general no sync run ever removes an existing path (overwrite-only semantics,
never delete-on-empty). -/
theorem c4_fetch_error_empty_sync_preserves_directory :
    (∀ (e now : List Char) (dir : List (List Char × List Char)),
      GithubSync.runSyncOnDir (.error e) now dir = dir)
    ∧ (∀ (r : Except (List Char) (List GithubSync.Issue)) (now : List Char)
        (dir : List (List Char × List Char)) (p : List Char),
        p ∈ dir.map Prod.fst → p ∈ (GithubSync.runSyncOnDir r now dir).map Prod.fst) := by
  constructor
  · intro e now dir
    rfl
  · intro r now dir p h
    exact applyWrites_preserves_names _ dir p h

/-- Witness for C4: a failing fetch over a one-file directory leaves it
unchanged, and an empty successful fetch preserves the existing path. -/
theorem c4_witness :
    (GithubSync.runSyncOnDir (.error (("connection refused").toList))
        (("2026-02-03 10:15").toList)
        [((("001-a.md").toList), (("old content").toList))]
      = [((("001-a.md").toList), (("old content").toList))])
    ∧ (("001-a.md").toList
        ∈ (GithubSync.runSyncOnDir (.ok []) (("2026-02-03 10:15").toList)
            [((("001-a.md").toList), (("old content").toList))]).map Prod.fst) := by
  exact ⟨c4_fetch_error_empty_sync_preserves_directory.1 _ _ _,
    c4_fetch_error_empty_sync_preserves_directory.2 _ _ _ _ (by decide)⟩

end ClaimC4

section ClaimC7

/-- C7 fails as stated at identifiers 999 < 1000: `{n:03d}` does not pad a
four-digit identifier, so the file for issue 999 sorts lexically after the
one for issue 1000. -/
theorem c7_counterexample :
    (GithubSync.Issue.number ⟨999, ("a").toList, [], [], [], [], [], [], []⟩
      < GithubSync.Issue.number ⟨1000, ("a").toList, [], [], [], [], [], [], []⟩)
    ∧ lexLt (GithubSync.filenameOf ⟨999, ("a").toList, [], [], [], [], [], [], []⟩)
        (GithubSync.filenameOf ⟨1000, ("a").toList, [], [], [], [], [], [], []⟩) = false := by
  decide

/-- C7 amended: for identifiers up to 999 (where zero-padding to width 3 does
make all number prefixes equally long), identifier order implies lexical
filename order. -/
theorem c7_amended (i j : GithubSync.Issue) (hij : i.number < j.number)
    (hj : j.number ≤ 999) :
    lexLt (GithubSync.filenameOf i) (GithubSync.filenameOf j) = true := by
  have hshape : ∀ k : GithubSync.Issue, GithubSync.filenameOf k
      = pad3 k.number ++ '-' :: (GithubSync.sanitize_filename k.title ++ (".md").toList) := by
    intro k
    simp [GithubSync.filenameOf]
  rw [hshape i, hshape j]
  apply lexLt_append
  · rw [pad3_length3 i.number (by omega), pad3_length3 j.number hj]
  · exact pad3_lexLt _ _ hij hj

/-- Witness for C7 amended at identifiers 7 < 40. -/
theorem c7_witness :
    lexLt (GithubSync.filenameOf ⟨7, ("b").toList, [], [], [], [], [], [], []⟩)
      (GithubSync.filenameOf ⟨40, ("a").toList, [], [], [], [], [], [], []⟩) = true :=
  c7_amended _ _ (by decide) (by decide)

end ClaimC7

section ClaimC3

lemma filenameOf_encodes_number (i : GithubSync.Issue) :
    digitsToNat ((GithubSync.filenameOf i).takeWhile (fun c => c != '-')) = i.number := by
  have hshape : GithubSync.filenameOf i
      = pad3 i.number ++ '-' :: (GithubSync.sanitize_filename i.title ++ (".md").toList) := by
    simp [GithubSync.filenameOf]
  rw [hshape, takeWhile_pad3, digitsToNat_pad3]

/-- C3 fails as stated: the output path depends on the title as well as the
identifier, so a run that processes the same identifier with a changed title
writes a different path (the old file is not removed, so a second file now
exists for that identifier). -/
theorem c3_counterexample :
    (GithubSync.Issue.number ⟨1, ("Setup").toList, [], [], [], [], [], [], []⟩
      = GithubSync.Issue.number ⟨1, ("Setup v2").toList, [], [], [], [], [], [], []⟩)
    ∧ GithubSync.filenameOf ⟨1, ("Setup").toList, [], [], [], [], [], [], []⟩
      ≠ GithubSync.filenameOf ⟨1, ("Setup v2").toList, [], [], [], [], [], [], []⟩ := by
  decide

/-- C3 amended: the output path is a pure function of the record's identifier
and title (so runs seeing the same identifier with an unchanged title reuse
the same path); each filename encodes its identifier in the digits before the
first hyphen; records with pairwise distinct identifiers get pairwise
distinct filenames; and a nonempty sync writes exactly one file per record,
in input order, plus the README index. -/
theorem c3_amended :
    (∀ i j : GithubSync.Issue, i.number = j.number → i.title = j.title →
      GithubSync.filenameOf i = GithubSync.filenameOf j)
    ∧ (∀ i : GithubSync.Issue,
        digitsToNat ((GithubSync.filenameOf i).takeWhile (fun c => c != '-')) = i.number)
    ∧ (∀ issues : List GithubSync.Issue, (issues.map GithubSync.Issue.number).Nodup →
        (issues.map GithubSync.filenameOf).Nodup)
    ∧ (∀ (issues : List GithubSync.Issue) (now : List Char), issues ≠ [] →
        (GithubSync.syncOutputs issues now).map Prod.fst
          = issues.map GithubSync.filenameOf ++ [("README.md").toList]) := by
  refine ⟨?_, filenameOf_encodes_number, ?_, ?_⟩
  · intro i j h1 h2
    simp [GithubSync.filenameOf, h1, h2]
  · intro issues h
    have hmap : issues.map GithubSync.Issue.number
        = (issues.map GithubSync.filenameOf).map
            (fun f => digitsToNat (f.takeWhile (fun c => c != '-'))) := by
      rw [List.map_map]
      apply List.map_congr_left
      intro a ha
      exact (filenameOf_encodes_number a).symm
    rw [hmap] at h
    exact h.of_map _
  · intro issues now h
    unfold GithubSync.syncOutputs
    rw [if_neg h]
    simp [List.map_append, List.map_map, Function.comp]

/-- Witness for C3 amended: same identifier and title give the same path;
three records with distinct identifiers get three distinct filenames; a
one-record sync writes that record's file plus the index. -/
theorem c3_witness :
    (GithubSync.filenameOf ⟨4, ("Fix grid").toList, [], [], [], [], [], [], []⟩
      = GithubSync.filenameOf ⟨4, ("Fix grid").toList, [], [], [], [], [], [], []⟩)
    ∧ (List.map GithubSync.filenameOf
        [⟨1, ("a").toList, [], [], [], [], [], [], []⟩,
         ⟨2, ("a").toList, [], [], [], [], [], [], []⟩,
         ⟨3, ("a").toList, [], [], [], [], [], [], []⟩]).Nodup
    ∧ (GithubSync.syncOutputs [⟨1, ("a").toList, [], [], [], [], [], [], []⟩]
        (("2026-02-03 10:15").toList)).map Prod.fst
        = List.map GithubSync.filenameOf [⟨1, ("a").toList, [], [], [], [], [], [], []⟩]
          ++ [("README.md").toList] := by
  exact ⟨c3_amended.1 _ _ rfl rfl, c3_amended.2.2.1 _ (by decide),
    c3_amended.2.2.2 _ _ (by decide)⟩

end ClaimC3

section ClaimC10

lemma afterFirstColon_append (p rest : List Char) (hp : ':' ∉ p) :
    afterFirstColon (p ++ ':' :: rest) = rest := by
  unfold afterFirstColon
  rw [if_pos (by simp)]
  rw [dropWhile_block p (':' :: rest)
    (fun c hc => by
      have hne : c ≠ ':' := fun he => hp (by rw [← he]; exact hc)
      simpa [bne_iff_ne] using hne)]
  simp [List.dropWhile_cons]

/-- C10: sanitization discards everything up to and including the first colon
— the result coincides with sanitizing the suffix that starts at that first
colon, so the filename is derived only from the text after it; in particular
the titles "P1.1: Setup" and "Intro: Setup" both sanitize to "setup". -/
theorem c10_first_colon_prefix_discarded :
    (∀ (p rest : List Char), ':' ∉ p →
      GithubSync.sanitize_filename (p ++ ':' :: rest)
        = GithubSync.sanitize_filename (':' :: rest))
    ∧ GithubSync.sanitize_filename (("P1.1: Setup").toList) = ("setup").toList
    ∧ GithubSync.sanitize_filename (("Intro: Setup").toList) = ("setup").toList := by
  refine ⟨?_, by decide, by decide⟩
  intro p rest hp
  unfold GithubSync.sanitize_filename
  rw [afterFirstColon_append p rest hp,
    show afterFirstColon (':' :: rest) = rest from afterFirstColon_append [] rest (by simp)]

/-- Witness for C10 at the prefix "P1.1" and suffix " Setup". -/
theorem c10_witness :
    GithubSync.sanitize_filename ((("P1.1").toList) ++ ':' :: ((" Setup").toList))
      = GithubSync.sanitize_filename (':' :: ((" Setup").toList)) :=
  c10_first_colon_prefix_discarded.1 (("P1.1").toList) ((" Setup").toList) (by decide)

end ClaimC10

section ClaimC9

/-- C9: when the piece after the last hyphen of a `.md` filename is a
nonempty digit string, the suffix and its hyphen are stripped and the `.md`
extension restored ("Fix bug-140026.md" becomes "Fix bug.md"); a name with no
such purely numeric final segment ("Fix bug.md") is returned unchanged. -/
theorem c9_numeric_suffix_stripped :
    (∀ (base ds : List Char), ds ≠ [] → (∀ c ∈ ds, c.isDigit = true) →
      AppleNotes.sanitize_filename (base ++ '-' :: (ds ++ (".md").toList))
        = base ++ (".md").toList)
    ∧ AppleNotes.sanitize_filename (("Fix bug.md").toList) = ("Fix bug.md").toList
    ∧ AppleNotes.sanitize_filename (("Fix bug-140026.md").toList) = ("Fix bug.md").toList := by
  refine ⟨?_, by decide, by decide⟩
  intro base ds hne hds
  have hdot : ∀ c ∈ ds, c ≠ '.' := fun c hc => isDigit_ne (hds c hc) (by decide)
  have hdashds : ∀ c ∈ ds, c ≠ '-' := fun c hc => isDigit_ne (hds c hc) (by decide)
  have hsuf : (".md").toList.isSuffixOf (base ++ '-' :: (ds ++ (".md").toList)) = true := by
    rw [List.isSuffixOf_iff_suffix]
    exact ⟨base ++ '-' :: ds, by simp⟩
  have hmem : '-' ∈ base ++ '-' :: (ds ++ (".md").toList) := by simp
  have hall : ∀ c ∈ (".md").toList.reverse ++ ds.reverse, (c != '-') = true := by
    intro c hc
    rcases List.mem_append.mp hc with hc | hc
    · have : c = 'd' ∨ c = 'm' ∨ c = '.' := by simpa using hc
      rcases this with h1 | h1 | h1 <;> subst h1 <;> decide
    · rw [List.mem_reverse] at hc
      simpa [bne_iff_ne] using hdashds c hc
  have hrev : (base ++ '-' :: (ds ++ (".md").toList)).reverse
      = ((".md").toList.reverse ++ ds.reverse) ++ '-' :: base.reverse := by
    simp [List.reverse_append, List.append_assoc]
  have htake : ((base ++ '-' :: (ds ++ (".md").toList)).reverse.takeWhile
      (fun c => c != '-')).reverse = ds ++ (".md").toList := by
    rw [hrev, takeWhile_block _ '-' _ hall (by decide)]
    simp
  have hdrop : (((base ++ '-' :: (ds ++ (".md").toList)).reverse.dropWhile
      (fun c => c != '-')).tail).reverse = base := by
    rw [hrev, dropWhile_block _ _ hall]
    rw [List.dropWhile_cons]
    simp
  have hrepl : removeMd (ds ++ (".md").toList) = ds := by
    have h1 := pyReplace_front [] '.' (("md").toList) ds [] hdot
    have h2 : pyReplace ([] : List Char) ('.' :: ("md").toList) [] = [] := rfl
    simp only [h2, List.append_nil] at h1
    exact h1
  simp only [AppleNotes.sanitize_filename, hsuf, hmem, if_true]
  rw [htake, hdrop, hrepl]
  rw [if_pos ⟨hne, List.all_eq_true.mpr hds⟩]

/-- Witness for C9 at base "Fix bug" and digit suffix "140026". -/
theorem c9_witness :
    AppleNotes.sanitize_filename
        ((("Fix bug").toList) ++ '-' :: ((("140026").toList) ++ (".md").toList))
      = ("Fix bug").toList ++ (".md").toList :=
  c9_numeric_suffix_stripped.1 (("Fix bug").toList) (("140026").toList)
    (by decide) (by decide)

end ClaimC9

section ClaimC8

lemma mem_pyStrip {c : Char} {l : List Char} (h : c ∈ pyStrip l) : c ∈ l := by
  unfold pyStrip at h
  rw [List.mem_reverse] at h
  have h2 : c ∈ (l.dropWhile pyIsSpace).reverse :=
    (List.dropWhile_sublist pyIsSpace).subset h
  rw [List.mem_reverse] at h2
  exact (List.dropWhile_sublist pyIsSpace).subset h2

lemma mem_afterFirstColon {c : Char} {l : List Char} (h : c ∈ afterFirstColon l) : c ∈ l := by
  unfold afterFirstColon at h
  by_cases hc : ':' ∈ l
  · rw [if_pos hc] at h
    exact (List.dropWhile_sublist _).subset (List.mem_of_mem_tail h)
  · rwa [if_neg hc] at h

lemma lower_ascii_alnum_safe :
    ∀ n, n < 128 → pyIsAlnum (Char.toLower (Char.ofNat n)) = true →
      inSafeSet (Char.toLower (Char.ofNat n)) = true := by decide

lemma lower_char_safe (x : Char) (hx : x.toNat < 128)
    (h : pyIsAlnum (Char.toLower x) = true) : inSafeSet (Char.toLower x) = true := by
  have h2 := lower_ascii_alnum_safe x.toNat hx
  rw [Char.ofNat_toNat] at h2
  exact h2 h

/-- C8 fails as stated: Python's `isalnum` is Unicode-aware, so non-ASCII
letters survive sanitization — the title "Café" sanitizes to "café", which
contains 'é', a character outside `[a-z0-9-_]`. -/
theorem c8_counterexample :
    GithubSync.sanitize_filename (("Café").toList) = ("café").toList
    ∧ 'é' ∈ GithubSync.sanitize_filename (("Café").toList)
    ∧ inSafeSet 'é' = false := by
  decide

/-- C8 amended: for titles made of ASCII characters and the arrow glyph (the
inputs the script is written for), every character of the sanitized filename
lies in `[a-z0-9-_]`; non-ASCII alphanumerics, when present, are kept rather
than stripped. -/
theorem c8_amended (title : List Char)
    (h : title.all (fun c => c.toNat < 128 || c = '→') = true) :
    (GithubSync.sanitize_filename title).all inSafeSet = true := by
  rw [List.all_eq_true] at h ⊢
  intro c hc
  unfold GithubSync.sanitize_filename at hc
  rw [List.mem_filter] at hc
  obtain ⟨hmem, hpred⟩ := hc
  rw [List.mem_flatMap] at hmem
  obtain ⟨a, ha, hca⟩ := hmem
  by_cases harr : a = '→'
  · rw [if_pos harr] at hca
    have : c = 't' ∨ c = 'o' := by simpa using hca
    rcases this with h1 | h1 <;> subst h1 <;> decide
  · rw [if_neg harr] at hca
    have hceq : c = a := by simpa using hca
    rw [List.mem_map] at ha
    obtain ⟨b, hb, hba⟩ := ha
    rw [List.mem_map] at hb
    obtain ⟨e, he, heb⟩ := hb
    rw [List.mem_map] at he
    obtain ⟨x, hx, hxe⟩ := he
    have hx0 : x ∈ title := mem_afterFirstColon (mem_pyStrip hx)
    have hx2 : x.toNat < 128 ∨ x = '→' := by
      simpa [Bool.or_eq_true, decide_eq_true_eq] using h x hx0
    subst hxe
    subst heb
    subst hba
    subst hceq
    rcases hx2 with hacs | hxarr
    · by_cases hsp : Char.toLower x = ' '
      · rw [hsp]
        decide
      · by_cases hsl : Char.toLower x = '/'
        · rw [hsl]
          decide
        · simp only [hsp, hsl, if_neg, ite_false] at hpred ⊢
          have hp2 : pyIsAlnum (Char.toLower x) = true
              ∨ Char.toLower x = '-' ∨ Char.toLower x = '_' := by
            simpa [Bool.or_eq_true, decide_eq_true_eq, or_assoc] using hpred
          rcases hp2 with hp2 | hp2 | hp2
          · exact lower_char_safe x hacs hp2
          · rw [hp2]; decide
          · rw [hp2]; decide
    · exfalso
      apply harr
      subst hxarr
      decide

/-- Witness for C8 amended at an ASCII-plus-arrow title. -/
theorem c8_witness :
    (GithubSync.sanitize_filename (("P1.9: Grid → List / PAFV").toList)).all inSafeSet
      = true :=
  c8_amended _ (by decide)

end ClaimC8

section ClaimC5

/-- C5 fails as stated: the script strips the extracted slice
(`group(0).replace(start, '').strip()`), so the result is not exactly the
text strictly between the start marker and the first end occurrence — for
this document that text is "\nhello\n" (or "hello\n" if the heading line is
read as ending after its newline), while the code yields "hello". -/
theorem c5_counterexample :
    SplitKB.splitSection (("### A\nhello\n### B\nrest\n### B").toList)
        (("### A").toList) (("### B").toList) = some (("hello").toList)
    ∧ SplitKB.splitSection (("### A\nhello\n### B\nrest\n### B").toList)
        (("### A").toList) (("### B").toList) ≠ some (("\nhello\n").toList)
    ∧ SplitKB.splitSection (("### A\nhello\n### B\nrest\n### B").toList)
        (("### A").toList) (("### B").toList) ≠ some (("hello\n").toList) := by
  decide

/-- C5 amended: for a document whose first start-marker occurrence is
followed by an end-pattern occurrence, extraction returns the
whitespace-stripped text strictly between the start marker and the FIRST
end-pattern occurrence after it (spanning line breaks and blank lines, and
with the marker itself removed, hypothesising that the marker does not recur
inside the slice), excluding all content at or after that first end
occurrence even when the end pattern occurs again later in the suffix. -/
theorem c5_amended (pre mid endPat suf : List Char) (p : Char) (ps : List Char)
    (hstart : findPat (p :: ps) (pre ++ (p :: ps) ++ mid ++ endPat ++ suf) = some pre.length)
    (hend : findPat endPat (mid ++ endPat ++ suf) = some mid.length)
    (hmid : findPat (p :: ps) mid = none) :
    SplitKB.splitSection (pre ++ (p :: ps) ++ mid ++ endPat ++ suf) (p :: ps) endPat
      = some (pyStrip mid) := by
  unfold SplitKB.splitSection SplitKB.extractGroup
  rw [hstart]
  dsimp only
  have hdrop : (pre ++ (p :: ps) ++ mid ++ endPat ++ suf).drop (pre.length + (p :: ps).length)
      = mid ++ endPat ++ suf := by
    have hsh : pre ++ (p :: ps) ++ mid ++ endPat ++ suf
        = (pre ++ (p :: ps)) ++ (mid ++ endPat ++ suf) := by
      simp [List.append_assoc]
    rw [hsh, show pre.length + (p :: ps).length = (pre ++ (p :: ps)).length from
      (List.length_append _ _).symm, List.drop_left]
  rw [hdrop, hend]
  dsimp only
  have htake : (mid ++ endPat ++ suf).take mid.length = mid := by
    rw [show mid ++ endPat ++ suf = mid ++ (endPat ++ suf) from by simp [List.append_assoc],
      List.take_left]
  rw [htake]
  have hfront := pyReplace_front [] p ps [] mid (by simp)
  simp only [List.nil_append] at hfront
  simp only [Option.map, hfront, pyReplace_no_occurrence mid hmid]

/-- Witness for C5 amended, with the end pattern recurring later in the
document. -/
theorem c5_witness :
    SplitKB.splitSection
        ((("intro\n").toList) ++ ('#' :: (("## A").toList)) ++ (("\nsection body\n").toList)
          ++ (("### B").toList) ++ ((" tail\n### B").toList))
        ('#' :: (("## A").toList)) (("### B").toList)
      = some (pyStrip (("\nsection body\n").toList)) :=
  c5_amended _ _ _ _ '#' (("## A").toList) (by decide) (by decide) (by decide)

end ClaimC5

section ClaimC2

lemma processAll_append_error (e : List Char) (r : GithubSync.RawIssue)
    (post : List GithubSync.RawIssue) (hr : GithubSync.renderOne r = .error e) :
    ∀ pre : List GithubSync.RawIssue, (∀ i ∈ pre, (GithubSync.renderOne i).isOk = true) →
      GithubSync.processAll (pre ++ r :: post)
        = (pre.filterMap (fun i => (GithubSync.renderOne i).toOption), some e) := by
  intro pre
  induction pre with
  | nil =>
    intro hpre
    simp [GithubSync.processAll, hr]
  | cons i pre ih =>
    intro hpre
    have hi := hpre i (by simp)
    obtain ⟨v, hv⟩ : ∃ v, GithubSync.renderOne i = .ok v := by
      cases hio : GithubSync.renderOne i with
      | error e2 => rw [hio] at hi; simp [Except.isOk, Except.toBool] at hi
      | ok v => exact ⟨v, rfl⟩
    have ih2 := ih (fun x hx => hpre x (by simp [hx]))
    have hfi : (Except.ok v : Except (List Char) (List Char × List Char)).toOption
        = some v := rfl
    simp only [List.cons_append, GithubSync.processAll, hv, List.append_eq, ih2,
      List.filterMap_cons, hfi]

set_option maxRecDepth 100000 in
/-- C2 fails as stated: the per-record loop of `main` has no exception
handling, so a record with a missing required field (here no `number`) does
not get skipped — the uncaught `KeyError` aborts the run.  For 3 records
where record 2 is malformed, exactly 1 file is written (not 2) and record 3
is never processed. -/
theorem c2_counterexample :
    ((GithubSync.runSyncRaw [Samples.c2Ok1, Samples.c2Bad, Samples.c2Ok3]
        (("2026-02-03 10:15").toList)).1.length = 1)
    ∧ ((GithubSync.runSyncRaw [Samples.c2Ok1, Samples.c2Bad, Samples.c2Ok3]
        (("2026-02-03 10:15").toList)).2 = some (("KeyError: number").toList)) := by
  decide

/-- C2 amended: for an input sequence consisting of well-formed records
followed by one malformed record (missing required field) and an arbitrary
tail, the sync writes exactly the files of the leading well-formed records
and then aborts with the uncaught error: later records are not processed and
no index is written. -/
theorem c2_amended (pre : List GithubSync.RawIssue) (r : GithubSync.RawIssue)
    (post : List GithubSync.RawIssue) (now e : List Char)
    (hpre : ∀ i ∈ pre, (GithubSync.renderOne i).isOk = true)
    (hr : GithubSync.renderOne r = .error e) :
    GithubSync.runSyncRaw (pre ++ r :: post) now
      = (pre.filterMap (fun i => (GithubSync.renderOne i).toOption), some e) := by
  unfold GithubSync.runSyncRaw
  rw [if_neg (by simp)]
  rw [processAll_append_error e r post hr pre hpre]

/-- Witness for C2 amended at one good record, one record missing `number`,
and one further record. -/
theorem c2_witness :
    GithubSync.runSyncRaw [Samples.c2Ok1, Samples.c2Bad, Samples.c2Ok3]
        (("2026-02-03 10:15").toList)
      = ([Samples.c2Ok1].filterMap (fun i => (GithubSync.renderOne i).toOption),
         some (("KeyError: number").toList)) :=
  c2_amended [Samples.c2Ok1] Samples.c2Bad [Samples.c2Ok3] _ _ (by decide) rfl

end ClaimC2

section ClaimC1

set_option maxRecDepth 400000 in
/-- C1 fails as stated: the generated index embeds the wall-clock time
(`Last synced: {datetime.now()...}`), so two runs over identical source data
made at different minutes produce indexes that differ byte-wise. -/
theorem c1_counterexample :
    GithubSync.syncOutputs [Samples.c1Issue] (("2026-02-03 10:15").toList)
      ≠ GithubSync.syncOutputs [Samples.c1Issue] (("2026-02-03 10:16").toList) := by
  decide

/-- C1 amended: with unchanged source data, the per-record markdown files are
byte-identical across runs; the whole output (record files plus index) is
byte-identical exactly when the two runs format the same `Last synced`
timestamp — the index is the only output that depends on anything but the
fetched records. -/
theorem c1_amended (issues : List GithubSync.Issue) (n1 n2 : List Char)
    (h : issues ≠ []) :
    ((GithubSync.syncOutputs issues n1).take issues.length
      = (GithubSync.syncOutputs issues n2).take issues.length)
    ∧ (GithubSync.syncOutputs issues n1 = GithubSync.syncOutputs issues n2 ↔ n1 = n2) := by
  have hout : ∀ n, GithubSync.syncOutputs issues n
      = issues.map (fun i => (GithubSync.filenameOf i, GithubSync.create_issue_markdown i))
        ++ [((("README.md").toList), GithubSync.create_index issues n)] := by
    intro n
    unfold GithubSync.syncOutputs
    rw [if_neg h]
  constructor
  · rw [hout n1, hout n2,
      show issues.length
        = (issues.map (fun i =>
            (GithubSync.filenameOf i, GithubSync.create_issue_markdown i))).length
        from by simp,
      List.take_left, List.take_left]
  · constructor
    · intro heq
      rw [hout n1, hout n2] at heq
      have h2 := List.append_cancel_left heq
      have h3 : GithubSync.create_index issues n1 = GithubSync.create_index issues n2 := by
        simpa using h2
      unfold GithubSync.create_index at h3
      rw [List.append_assoc, List.append_assoc] at h3
      have h4 := List.append_cancel_left h3
      exact List.append_cancel_right h4
    · intro he
      rw [he]

/-- Witness for C1 amended at a one-issue fetch and two distinct clock
readings. -/
theorem c1_witness :
    ((GithubSync.syncOutputs [Samples.c1Issue] (("2026-02-03 10:15").toList)).take
        ([Samples.c1Issue]).length
      = (GithubSync.syncOutputs [Samples.c1Issue] (("2026-02-03 10:16").toList)).take
        ([Samples.c1Issue]).length)
    ∧ (GithubSync.syncOutputs [Samples.c1Issue] (("2026-02-03 10:15").toList)
        = GithubSync.syncOutputs [Samples.c1Issue] (("2026-02-03 10:16").toList)
       ↔ ("2026-02-03 10:15").toList = ("2026-02-03 10:16").toList) :=
  c1_amended [Samples.c1Issue] _ _ (by decide)

end ClaimC1

section ClaimC6

lemma no_newline_append {a b : List Char} (ha : '\n' ∉ a) (hb : '\n' ∉ b) :
    '\n' ∉ a ++ b := by
  intro h
  rcases List.mem_append.mp h with h | h
  · exact ha h
  · exact hb h

lemma natRepr_no_newline (n : Nat) : '\n' ∉ natRepr n := by
  intro h
  exact absurd (natRepr_isDigit n '\n' h) (by decide)

lemma fmt_no_newline (x : List Char) (hx : '\n' ∉ x) :
    '\n' ∉ optStr (GithubSync.format_date x) := by
  by_cases he : x = []
  · simp only [GithubSync.format_date, if_pos he, optStr]
    decide
  · simp only [GithubSync.format_date, if_neg he, optStr]
    intro h
    exact hx (List.take_subset 10 x h)

lemma closedDate_cases (i : GithubSync.Issue) :
    GithubSync.closedDate i
      = (if i.closed_at = [] then none else some (i.closed_at.take 10)) := by
  unfold GithubSync.closedDate GithubSync.format_date
  by_cases he : i.closed_at = []
  · simp [he]
  · simp [he]

lemma joinComma_no_newline : ∀ ls : List (List Char), (∀ l ∈ ls, '\n' ∉ l) →
    '\n' ∉ joinComma ls := by
  intro ls
  induction ls with
  | nil => intro h; simp [joinComma]
  | cons l ls ih =>
    intro h
    cases ls with
    | nil => simpa [joinComma] using h l (by simp)
    | cons l2 ls2 =>
      simp only [joinComma]
      intro hm
      rcases List.mem_append.mp hm with hm | hm
      · rcases List.mem_append.mp hm with hm | hm
        · exact h l (by simp) hm
        · exact absurd hm (by decide)
      · exact ih (fun x hx => h x (by simp [hx])) hm

lemma phase_no_newline (t p : List Char) (h : GithubSync.phase_of t = some p) :
    '\n' ∉ p := by
  unfold GithubSync.phase_of at h
  split_ifs at h
  · injection h with h2; subst h2; decide
  · injection h with h2; subst h2; decide
  · injection h with h2; subst h2; decide

lemma keyFn_colon (k v : List Char) (hk : ':' ∉ k) : keyFn (k ++ ':' :: v) = some k := by
  unfold keyFn
  rw [if_pos (by simp)]
  congr 1
  exact takeWhile_block k ':' v
    (fun c hc => by
      have hne : c ≠ ':' := fun he => hk (by rw [← he]; exact hc)
      simpa [bne_iff_ne] using hne)
    (by decide)

lemma keyFn_nocolon (l : List Char) (hl : ':' ∉ l) : keyFn l = none := by
  unfold keyFn
  rw [if_neg hl]

lemma filterMap_closed_block (i : GithubSync.Issue) :
    List.filterMap keyFn
        (match GithubSync.closedDate i with
          | some c => [("closed: ").toList ++ c]
          | none => [])
      = (if i.closed_at ≠ [] then [("closed").toList] else []) := by
  by_cases he : i.closed_at = []
  · rw [closedDate_cases, if_pos he, if_neg (fun hne => hne he)]
    rfl
  · rw [closedDate_cases, if_neg he, if_pos he]
    dsimp only
    rw [List.filterMap_cons,
      show keyFn ((("closed: ").toList) ++ i.closed_at.take 10)
        = some (("closed").toList)
        from keyFn_colon (("closed").toList) (' ' :: i.closed_at.take 10) (by decide)]
    rfl

lemma filterMap_labels_block (i : GithubSync.Issue) :
    List.filterMap keyFn
        (if i.labels ≠ []
          then [("labels: [").toList ++ joinComma i.labels ++ ("]").toList]
          else [])
      = (if i.labels ≠ [] then [("labels").toList] else []) := by
  by_cases he : i.labels = []
  · rw [if_neg (fun hne => hne he), if_neg (fun hne => hne he)]
    rfl
  · rw [if_pos he, if_pos he]
    rw [List.filterMap_cons,
      show keyFn ((("labels: [").toList) ++ joinComma i.labels ++ (("]").toList))
        = some (("labels").toList)
        from keyFn_colon (("labels").toList)
          (' ' :: '[' :: (joinComma i.labels ++ (("]").toList))) (by decide)]
    rfl

lemma filterMap_phase_block (t : List Char) :
    List.filterMap keyFn
        (match GithubSync.phase_of t with
          | some p => [("phase: ").toList ++ p]
          | none => [])
      = (match GithubSync.phase_of t with
          | some _ => [("phase").toList]
          | none => []) := by
  rcases h : GithubSync.phase_of t with - | p
  · rfl
  · dsimp only
    rw [List.filterMap_cons,
      show keyFn ((("phase: ").toList) ++ p) = some (("phase").toList)
        from keyFn_colon (("phase").toList) (' ' :: p) (by decide)]
    rfl

lemma forall_mem_append2 {p : List Char → Prop} {a b : List (List Char)}
    (h1 : ∀ l ∈ a, p l) (h2 : ∀ l ∈ b, p l) : ∀ l ∈ a ++ b, p l := by
  intro l hl
  rcases List.mem_append.mp hl with h | h
  · exact h1 l h
  · exact h2 l h

lemma forall_mem_single {p : List Char → Prop} {a : List Char} (h : p a) :
    ∀ l ∈ [a], p l := by
  intro l hl
  rw [List.mem_singleton] at hl
  subst hl
  exact h

lemma fmLines_no_newline (i : GithubSync.Issue)
    (ht : '\n' ∉ i.title) (hs : '\n' ∉ i.state) (hca : '\n' ∉ i.created_at)
    (hua : '\n' ∉ i.updated_at) (hcl : '\n' ∉ i.closed_at) (hurl : '\n' ∉ i.html_url)
    (hlab : ∀ l ∈ i.labels, '\n' ∉ l) :
    ∀ l ∈ GithubSync.fmLines i, '\n' ∉ l := by
  unfold GithubSync.fmLines
  refine forall_mem_append2 ?_ (forall_mem_single (by decide))
  refine forall_mem_append2 ?_ (forall_mem_single (no_newline_append (by decide) hurl))
  refine forall_mem_append2 ?_ ?_
  rotate_left
  · rcases hp : GithubSync.phase_of i.title with - | p
    · intro l hl
      simp at hl
    · exact forall_mem_single (no_newline_append (by decide) (phase_no_newline _ _ hp))
  refine forall_mem_append2 ?_ ?_
  rotate_left
  · by_cases he : i.labels = []
    · rw [if_neg (fun hne => hne he)]
      intro l hl
      exact absurd hl (by simp)
    · rw [if_pos he]
      exact forall_mem_single (no_newline_append
        (no_newline_append (by decide) (joinComma_no_newline i.labels hlab)) (by decide))
  refine forall_mem_append2 ?_ ?_
  rotate_left
  · rw [closedDate_cases]
    by_cases he : i.closed_at = []
    · rw [if_pos he]
      intro l hl
      exact absurd hl (by simp)
    · rw [if_neg he]
      exact forall_mem_single (no_newline_append (by decide)
        (fun hm => hcl (List.take_subset 10 i.closed_at hm)))
  refine forall_mem_append2 ?_ (forall_mem_single
    (no_newline_append (by decide) (fmt_no_newline i.updated_at hua)))
  refine forall_mem_append2 ?_ (forall_mem_single
    (no_newline_append (by decide) (fmt_no_newline i.created_at hca)))
  refine forall_mem_append2 ?_ (forall_mem_single (no_newline_append (by decide) hs))
  refine forall_mem_append2 ?_ (forall_mem_single
    (no_newline_append (no_newline_append (by decide) ht) (by decide)))
  refine forall_mem_append2 ?_ (forall_mem_single
    (no_newline_append (by decide) (natRepr_no_newline i.number)))
  exact forall_mem_single (by decide)

set_option maxRecDepth 40000 in
/-- C6 fails as stated: the `url` key is emitted unconditionally, even when
the record's url field is empty — the frontmatter of an issue with an empty
`html_url` still carries a `url:` line. -/
theorem c6_counterexample :
    Samples.c6NoUrl.html_url = []
    ∧ ("url").toList ∈ keysOf (GithubSync.buildFrontmatter Samples.c6NoUrl) := by
  constructor
  · rfl
  · decide

/-- C6 amended: for every record (whose string fields contain no newline,
so that lines are well formed), the frontmatter keys are exactly, in this
fixed order: github_issue (the identifier), title, state, created and
updated always; closed only when closed_at is non-empty; labels only when
the label list is non-empty; phase only when the title matches a phase
prefix; and url ALWAYS — not only when the url field is non-empty.  The
order is the same for every record shape, so output is deterministic. -/
theorem c6_amended (i : GithubSync.Issue)
    (ht : '\n' ∉ i.title) (hs : '\n' ∉ i.state) (hca : '\n' ∉ i.created_at)
    (hua : '\n' ∉ i.updated_at) (hcl : '\n' ∉ i.closed_at) (hurl : '\n' ∉ i.html_url)
    (hlab : ∀ l ∈ i.labels, '\n' ∉ l) :
    keysOf (GithubSync.buildFrontmatter i)
      = [("github_issue").toList, ("title").toList, ("state").toList,
         ("created").toList, ("updated").toList]
        ++ (if i.closed_at ≠ [] then [("closed").toList] else [])
        ++ (if i.labels ≠ [] then [("labels").toList] else [])
        ++ (match GithubSync.phase_of i.title with
            | some _ => [("phase").toList]
            | none => [])
        ++ [("url").toList] := by
  unfold GithubSync.buildFrontmatter keysOf
  rw [splitLines_joinLn (GithubSync.fmLines i)
    (fmLines_no_newline i ht hs hca hua hcl hurl hlab)]
  rw [List.filterMap_append]
  unfold GithubSync.fmLines
  simp only [List.filterMap_append]
  rw [filterMap_closed_block, filterMap_labels_block, filterMap_phase_block]
  simp only [List.filterMap_cons, List.filterMap_nil,
    show keyFn (("---").toList) = none from keyFn_nocolon (("---").toList) (by decide),
    show keyFn ((("github_issue: ").toList) ++ natRepr i.number)
        = some (("github_issue").toList)
      from keyFn_colon (("github_issue").toList) (' ' :: natRepr i.number) (by decide),
    show keyFn ((("title: \"").toList) ++ i.title ++ (("\"").toList))
        = some (("title").toList)
      from keyFn_colon (("title").toList)
        (' ' :: '"' :: (i.title ++ (("\"").toList))) (by decide),
    show keyFn ((("state: ").toList) ++ i.state) = some (("state").toList)
      from keyFn_colon (("state").toList) (' ' :: i.state) (by decide),
    show keyFn ((("created: ").toList) ++ optStr (GithubSync.format_date i.created_at))
        = some (("created").toList)
      from keyFn_colon (("created").toList)
        (' ' :: optStr (GithubSync.format_date i.created_at)) (by decide),
    show keyFn ((("updated: ").toList) ++ optStr (GithubSync.format_date i.updated_at))
        = some (("updated").toList)
      from keyFn_colon (("updated").toList)
        (' ' :: optStr (GithubSync.format_date i.updated_at)) (by decide),
    show keyFn ((("url: ").toList) ++ i.html_url) = some (("url").toList)
      from keyFn_colon (("url").toList) (' ' :: i.html_url) (by decide),
    show keyFn ([] : List Char) = none from rfl]
  simp [List.append_assoc]

set_option maxRecDepth 40000 in
/-- Witness for C6 amended at a record with labels, a closed date and a
phase-classified title. -/
theorem c6_witness :
    keysOf (GithubSync.buildFrontmatter Samples.c6Full)
      = [("github_issue").toList, ("title").toList, ("state").toList,
         ("created").toList, ("updated").toList]
        ++ (if Samples.c6Full.closed_at ≠ [] then [("closed").toList] else [])
        ++ (if Samples.c6Full.labels ≠ [] then [("labels").toList] else [])
        ++ (match GithubSync.phase_of Samples.c6Full.title with
            | some _ => [("phase").toList]
            | none => [])
        ++ [("url").toList] :=
  c6_amended Samples.c6Full (by decide) (by decide) (by decide) (by decide) (by decide)
    (by decide) (by decide)

end ClaimC6
